import Mathlib

/-!
Verification of the hatch-generation core of pyslm (src/pyslm/hatching/hatching.py)
against its natural-language specification.

The Python source is shallowly embedded over exact rationals (numpy floats are
modelled as exact arithmetic in the field of rationals, which is the reading the
specification itself uses). External collaborators that are not part of the
repository (the pyclipr offset and clip engine, numpy sqrt and hypot) are
passed in as explicit function parameters, or characterised by hypotheses
(for the bounding-disk radius, the hypothesis r * r = radiusSq and 0 <= r
pins r to the exact value computed by the source from the bounding box).
-/

set_option linter.unusedVariables false

/-- A 2D point, as a pair of rational coordinates. -/
abbrev Point : Type := ℚ × ℚ

/-- A polygon path: an ordered list of points. -/
abbrev PolyPath : Type := List Point

/-- A coordinate row of the generated hatch arrays: x, y and the order tag z.
The tag is kept in the third component exactly as the source keeps it in the
third numpy column. -/
abbrev Row : Type := ℚ × ℚ × ℚ

/-- Minimum of a list of rationals (np.min along an axis); the source never
applies it to an empty array on the paths it is used, the default 0 only pads
the degenerate case. -/
def listMin (l : List ℚ) : ℚ :=
  match l with
  | [] => 0
  | a :: t => t.foldl min a

/-- Maximum of a list of rationals (np.max along an axis). -/
def listMax (l : List ℚ) : ℚ :=
  match l with
  | [] => 0
  | a :: t => t.foldl max a

/-- An axis-aligned bounding box (xmin, ymin, xmax, ymax), the XY part of the
arrays built by BaseHatcher.polygonBoundingBox. -/
structure BBox where
  xmin : ℚ
  ymin : ℚ
  xmax : ℚ
  ymax : ℚ
deriving Repr, DecidableEq

/-- Embedding of BaseHatcher.polygonBoundingBox applied to one path: the
componentwise min and max of the XY coordinates. -/
def polygonBoundingBox (path : PolyPath) : BBox :=
  { xmin := listMin (path.map Prod.fst)
    ymin := listMin (path.map Prod.snd)
    xmax := listMax (path.map Prod.fst)
    ymax := listMax (path.map Prod.snd) }

/-- Embedding of BaseHatcher.boundaryBoundingBox: per-boundary bounding boxes
combined by a further componentwise min and max. -/
def boundaryBoundingBox (paths : List PolyPath) : BBox :=
  let bs := paths.map polygonBoundingBox
  { xmin := listMin (bs.map BBox.xmin)
    ymin := listMin (bs.map BBox.ymin)
    xmax := listMax (bs.map BBox.xmax)
    ymax := listMax (bs.map BBox.ymax) }

/-- The centre of the bounding box of a set of boundaries
(np.mean(bbox.reshape(2, 2), axis=0) in the source). -/
def bboxCentre (paths : List PolyPath) : Point :=
  let bbox := boundaryBoundingBox paths
  ((bbox.xmin + bbox.xmax) / 2, (bbox.ymin + bbox.ymax) / 2)

/-- The squared bounding-disk radius computed by the generators:
diagonal = bbox[2:] - bboxCentre; radius = sqrt(diagonal.dot(diagonal)).
The square root itself is irrational in general, so theorems characterise the
radius r by the hypothesis r * r = bboxRadiusSq paths together with 0 <= r. -/
def bboxRadiusSq (paths : List PolyPath) : ℚ :=
  let bbox := boundaryBoundingBox paths
  let c := bboxCentre paths
  (bbox.xmax - c.1) * (bbox.xmax - c.1) + (bbox.ymax - c.2) * (bbox.ymax - c.2)

/-- Embedding of np.arange(start, stop, step) for a positive step: the values
start + k * step for k below the number of steps, which numpy fixes as
ceil((stop - start) / step) clamped at zero. -/
def arange (start stop step : ℚ) : List ℚ :=
  (List.range (Int.toNat ⌈(stop - start) / step⌉)).map
    (fun (k : ℕ) => start + (k : ℚ) * step)

/-- Embedding of np.tile(a.reshape(-1, 1), (2)).flatten(): every element is
repeated twice in place. -/
def tile2 (l : List ℚ) : List ℚ := l.flatMap (fun v => [v, v])

/-- Embedding of np.resize(np.array([a, b]), n): the two values a and b are
cycled until the requested length n is reached. -/
def resize2 (a b : ℚ) (n : ℕ) : List ℚ :=
  (List.range n).map (fun j => if j % 2 = 0 then a else b)

/-- Embedding of np.arange(start, start + n / 2, 0.5).astype(np.int64): the
half-integer ramp truncated to integers, i.e. start + j / 2 at index j. -/
def intArange2 (start : ℕ) (n : ℕ) : List ℕ :=
  (List.range n).map (fun j => start + j / 2)

/-- Embedding of np.hstack of an x column, a y column and an integer z column
into a list of coordinate rows. -/
def hstack3 (xs ys : List ℚ) (zs : List ℕ) : List Row :=
  List.zipWith (fun x yz => (x, yz.1, (yz.2 : ℚ))) xs (ys.zip zs)

/-- Embedding of the augmented rotation and translation applied by every
generator: the 3 by 3 matrix ((c, -s, 0), (s, c, 0), (0, 0, 1)) is applied to
each row and the bounding-box centre (cx, cy, 0) is added, so the third (tag)
component passes through unchanged. -/
def rotTrans (c s cx cy : ℚ) (p : Row) : Row :=
  (c * p.1 - s * p.2.1 + cx, s * p.1 + c * p.2.1 + cy, p.2.2)

/-- Embedding of the Python int() conversion applied to a float: truncation
toward zero. -/
def ratInt (q : ℚ) : ℤ :=
  if 0 ≤ q then ⌊q⌋ else ⌈q⌉

namespace BaseHatcher

/-- Embedding of BaseHatcher.generateHatching, the uniform parallel hatch
generator. The trigonometric pair (c, s) stands for (cos theta, sin theta) of
the hatch angle and the bounding-disk radius r is passed alongside the paths
(see bboxRadiusSq). In the local frame the x column steps from -r to r by the
hatch spacing with every value tiled twice, the y column alternates -r and r,
and the z column is the truncated half-integer ramp; the rows are then rotated
and translated to the bounding-box centre. -/
def generateHatching (c s : ℚ) (paths : List PolyPath) (r hatchSpacing : ℚ) : List Row :=
  let centre := bboxCentre paths
  let x := tile2 (arange (-r) r hatchSpacing)
  let y := resize2 (-r) r x.length
  let z := intArange2 0 x.length
  (hstack3 x y z).map (rotTrans c s centre.1 centre.2)

/-- Embedding of BaseHatcher.clipLines. The pyclipr intersection engine is the
function parameter clipEngine, returning each surviving clipped segment as its
two tagged endpoints. The source returns Python None when the list of subject
lines is empty, before ever reaching the engine; this is Option.none here. -/
def clipLines (clipEngine : List PolyPath → List Row → List (Row × Row))
    (paths : List PolyPath) (lines : List Row) : Option (List (Row × Row)) :=
  if lines.length = 0 then none
  else some (clipEngine paths lines)

end BaseHatcher

namespace Hatcher

/-- Embedding of the initial running offset of Hatcher.hatch (lines 753 and
754 of the source): offsetDelta = 1e-6, then offsetDelta -= spotCompensation. -/
def initialOffsetDelta (spotCompensation : ℚ) : ℚ :=
  let offsetDelta : ℚ := 1 / 1000000
  offsetDelta - spotCompensation

/-- Embedding of np.mod(a, 180): the floor-based remainder, because numpy mod
follows the sign of the (positive) modulus. -/
def npMod180 (a : ℚ) : ℚ :=
  a - 180 * (⌊a / 180⌋ : ℚ)

/-- Embedding of the effective layer hatch angle of Hatcher.hatch (lines 803
to 809): layerHatchAngle = np.mod(hatchAngle + layerAngleIncrement, 180), and
180 is subtracted whenever the result exceeds 90. -/
def layerHatchAngle (hatchAngle layerAngleIncrement : ℚ) : ℚ :=
  if 90 < npMod180 (hatchAngle + layerAngleIncrement) then
    npMod180 (hatchAngle + layerAngleIncrement) - 180
  else
    npMod180 (hatchAngle + layerAngleIncrement)

/-- Modelled from the spec: the canonicalisation rule of section 4.5, step 5a,
applied to a given raw angle theta: theta mod 180, then subtract 180 when the
result exceeds 90. The spec applies it to theta0 + delta * layer_index. -/
def specEffectiveAngle (theta : ℚ) : ℚ :=
  if 90 < npMod180 theta then npMod180 theta - 180 else npMod180 theta

end Hatcher

/-- Helper: np.mod(a, 180) lies in the interval from 0 inclusive to 180
exclusive. -/
lemma npMod180_bounds (a : ℚ) : 0 ≤ Hatcher.npMod180 a ∧ Hatcher.npMod180 a < 180 := by
  unfold Hatcher.npMod180
  have hfr : a - 180 * (⌊a / 180⌋ : ℚ) = 180 * Int.fract (a / 180) := by
    rw [Int.fract]
    ring
  have h0 := Int.fract_nonneg (a / 180)
  have h1 := Int.fract_lt_one (a / 180)
  constructor <;> (rw [hfr]; linarith)

/-- Claim C1: the running offset used for the first boundary offset in
Hatcher.hatch is claimed to start at -spotCompensation - epsilon; the source
initialises it to epsilon - spotCompensation instead (epsilon = 1e-6), which
this counterexample exhibits at the default spot compensation 0.08. -/
theorem c1_counterexample :
    Hatcher.initialOffsetDelta (8 / 100) ≠ -(8 / 100) - 1 / 1000000 := by
  unfold Hatcher.initialOffsetDelta
  norm_num

/-- Claim C1 (amended): in Hatcher.hatch the running offset for the first
(spot-compensation) boundary offset is initialised to epsilon minus
spot_compensation (epsilon = 1e-6), i.e. strictly less inward than the spot
compensation alone, for every spot compensation value. -/
theorem c1_initial_offset (spotCompensation : ℚ) :
    Hatcher.initialOffsetDelta spotCompensation = 1 / 1000000 - spotCompensation ∧
    -spotCompensation < Hatcher.initialOffsetDelta spotCompensation := by
  unfold Hatcher.initialOffsetDelta
  constructor
  · rfl
  · norm_num

/-- Claim C2: the effective hatch angle is claimed to be
((hatch_angle + layer_angle_increment * layer_index) mod 180) canonicalised.
The source computes np.mod(hatchAngle + layerAngleIncrement, 180) with no
layer-index multiplication at all, so with hatch angle 45 and increment 10 the
code yields the canonicalisation of 55 on every slice, while the claimed
formula yields the canonicalisation of 65 at layer index 2. -/
theorem c2_counterexample :
    Hatcher.layerHatchAngle 45 10 = Hatcher.specEffectiveAngle (45 + 10 * 1) ∧
    Hatcher.layerHatchAngle 45 10 ≠ Hatcher.specEffectiveAngle (45 + 10 * 2) := by
  have h1 : Hatcher.npMod180 (45 + 10 * 1) = 55 := by
    unfold Hatcher.npMod180
    norm_num
  have h2 : Hatcher.npMod180 (45 + 10 * 2) = 65 := by
    unfold Hatcher.npMod180
    norm_num
  unfold Hatcher.layerHatchAngle Hatcher.specEffectiveAngle
  rw [show (45 : ℚ) + 10 = 45 + 10 * 1 by norm_num, h1, h2]
  norm_num

/-- Claim C2 (amended): the effective hatch angle used by Hatcher.hatch equals
((hatch_angle + layer_angle_increment) mod 180), reduced by 180 whenever the
result exceeds 90 — the layer angle increment is added once, with no
layer-index multiplication — and the resulting angle lies in (-90, 90]. -/
theorem c2_effective_angle (hatchAngle layerAngleIncrement : ℚ) :
    Hatcher.layerHatchAngle hatchAngle layerAngleIncrement =
      Hatcher.specEffectiveAngle (hatchAngle + layerAngleIncrement) ∧
    -90 < Hatcher.layerHatchAngle hatchAngle layerAngleIncrement ∧
    Hatcher.layerHatchAngle hatchAngle layerAngleIncrement ≤ 90 := by
  refine ⟨rfl, ?_⟩
  obtain ⟨h0, h180⟩ := npMod180_bounds (hatchAngle + layerAngleIncrement)
  unfold Hatcher.layerHatchAngle
  split
  · constructor <;> linarith
  · constructor <;> linarith

namespace StripeHatcher

/-- Embedding of the stripe count of StripeHatcher.generateHatching (line 968):
numStripes = int(2 * bboxRadius / stripeWidth) + 1, with int() truncating. -/
def numStripes (r stripeWidth : ℚ) : ℤ :=
  ratInt (2 * r / stripeWidth) + 1

/-- Embedding of the left x extent of stripe i (line 975):
startX = -bboxRadius + i * stripeWidth - stripeOverlap. -/
def stripeStartX (r stripeWidth stripeOverlap : ℚ) (i : ℕ) : ℚ :=
  -r + (i : ℚ) * stripeWidth - stripeOverlap

/-- Embedding of the right x extent of stripe i (line 976):
endX = startX + stripeWidth + stripeOverlap. -/
def stripeEndX (r stripeWidth stripeOverlap : ℚ) (i : ℕ) : ℚ :=
  stripeStartX r stripeWidth stripeOverlap i + stripeWidth + stripeOverlap

/-- Embedding of StripeHatcher.generateHatching. The pair (c, s) stands for
(cos, sin) of the negated hatch angle, because this generator alone calls
radians(hatchAngle * -1.0). Each stripe contributes horizontal segments whose
y values step across the disk (odd stripes shifted by stripeOffset times the
hatch spacing) and whose x endpoints are the stripe extents; the global hatch
order counter advances by the number of segments of each stripe. -/
def generateHatching (c s : ℚ) (paths : List PolyPath)
    (r stripeWidth stripeOverlap stripeOffset hatchSpacing : ℚ) : List Row :=
  let centre := bboxCentre paths
  let res := (List.range (Int.toNat (numStripes r stripeWidth))).foldl
    (fun (st : ℕ × List Row) i =>
      let y := tile2 (arange (-r + ((i % 2 : ℕ) : ℚ) * stripeOffset * hatchSpacing)
                             (r + ((i % 2 : ℕ) : ℚ) * stripeOffset * hatchSpacing)
                             hatchSpacing)
      let x := resize2 (stripeStartX r stripeWidth stripeOverlap i)
                       (stripeEndX r stripeWidth stripeOverlap i) y.length
      let z := intArange2 st.1 y.length
      (st.1 + y.length / 2, st.2 ++ hstack3 x y z))
    (0, [])
  res.2.map (rotTrans c s centre.1 centre.2)

end StripeHatcher

/-- Claim C3: the claim states ceil(2r/W)+1 stripes and a stripe upper extent
of -r + (i+1)W + o. At radius 1, stripe width 3 and overlap 1/10 the source
produces int(2/3)+1 = 1 stripe, not ceil(2/3)+1 = 2, and stripe 0 ends at
x = 2, not 2 + 1/10: the overlap is consumed by the start extent and does not
extend the upper side. -/
theorem c3_counterexample :
    StripeHatcher.numStripes 1 3 ≠ ⌈2 * (1 : ℚ) / 3⌉ + 1 ∧
    StripeHatcher.stripeEndX 1 3 (1 / 10) 0 ≠ -1 + ((0 : ℕ) + 1) * 3 + 1 / 10 := by
  constructor
  · unfold StripeHatcher.numStripes ratInt
    have hf : (⌊2 * (1 : ℚ) / 3⌋ : ℤ) = 0 := by norm_num
    have hc : (⌈2 * (1 : ℚ) / 3⌉ : ℤ) = 1 := by
      rw [Int.ceil_eq_iff] <;> norm_num
    rw [if_pos (by norm_num), hf, hc]
    norm_num
  · unfold StripeHatcher.stripeEndX StripeHatcher.stripeStartX
    norm_num

/-- Claim C3 (amended): for every boundary with bounding-disk radius r > 0,
stripe width W > 0 and overlap o, StripeHatcher.generateHatching partitions
the disk into exactly floor(2r/W)+1 stripes, and stripe i spans x from
-r + iW - o to -r + (i+1)W: the overlap extends each stripe only below its
nominal band, the upper extent is the nominal band edge itself. -/
theorem c3_stripe_partition (r w o : ℚ) (i : ℕ) (hr : 0 < r) (hw : 0 < w) :
    StripeHatcher.numStripes r w = ⌊2 * r / w⌋ + 1 ∧
    StripeHatcher.stripeStartX r w o i = -r + (i : ℚ) * w - o ∧
    StripeHatcher.stripeEndX r w o i = -r + ((i : ℚ) + 1) * w := by
  refine ⟨?_, rfl, ?_⟩
  · unfold StripeHatcher.numStripes ratInt
    rw [if_pos (by positivity)]
  · unfold StripeHatcher.stripeEndX StripeHatcher.stripeStartX
    ring

/-- Witness for the amended claim C3, at radius 1, width 3, overlap 1/10 and
stripe index 0. -/
theorem c3_witness :
    StripeHatcher.numStripes 1 3 = ⌊2 * (1 : ℚ) / 3⌋ + 1 ∧
    StripeHatcher.stripeStartX 1 3 (1 / 10) 0 = -1 + ((0 : ℕ) : ℚ) * 3 - 1 / 10 ∧
    StripeHatcher.stripeEndX 1 3 (1 / 10) 0 = -1 + (((0 : ℕ) : ℚ) + 1) * 3 :=
  c3_stripe_partition 1 3 (1 / 10) 0 (by norm_num) (by norm_num)

/-- Helper: length of the doubled column. -/
lemma tile2_length (l : List ℚ) : (tile2 l).length = 2 * l.length := by
  induction l with
  | nil => simp [tile2]
  | cons a t ih =>
    have h : tile2 (a :: t) = a :: a :: tile2 t := rfl
    rw [h]
    simp [List.length_cons, ih]
    omega

/-- Helper: even positions of the doubled column. -/
lemma tile2_getElem?_even (l : List ℚ) (k : ℕ) : (tile2 l)[2 * k]? = l[k]? := by
  induction l generalizing k with
  | nil => simp [tile2]
  | cons a t ih =>
    cases k with
    | zero => simp [tile2]
    | succ m =>
      have h2 : 2 * (m + 1) = (2 * m) + 1 + 1 := by ring
      simp only [tile2, List.flatMap_cons, h2]
      simpa [tile2] using ih m

/-- Helper: odd positions of the doubled column. -/
lemma tile2_getElem?_odd (l : List ℚ) (k : ℕ) : (tile2 l)[2 * k + 1]? = l[k]? := by
  induction l generalizing k with
  | nil => simp [tile2]
  | cons a t ih =>
    cases k with
    | zero => simp [tile2]
    | succ m =>
      have h2 : 2 * (m + 1) + 1 = (2 * m + 1) + 1 + 1 := by ring
      simp only [tile2, List.flatMap_cons, h2]
      simpa [tile2] using ih m

/-- Helper: length of the cycled two-value column. -/
lemma resize2_length (a b : ℚ) (n : ℕ) : (resize2 a b n).length = n := by
  simp [resize2]

/-- Helper: element of the cycled two-value column. -/
lemma resize2_getElem? (a b : ℚ) (n j : ℕ) (h : j < n) :
    (resize2 a b n)[j]? = some (if j % 2 = 0 then a else b) := by
  simp [resize2, List.getElem?_map, List.getElem?_range h]

/-- Helper: length of the truncated half-integer ramp. -/
lemma intArange2_length (s n : ℕ) : (intArange2 s n).length = n := by
  simp [intArange2]

/-- Helper: element of the truncated half-integer ramp. -/
lemma intArange2_getElem? (s n j : ℕ) (h : j < n) :
    (intArange2 s n)[j]? = some (s + j / 2) := by
  simp [intArange2, List.getElem?_map, List.getElem?_range h]

/-- Helper: length of the stacked rows is bounded by the x column. -/
lemma hstack3_length (xs ys : List ℚ) (zs : List ℕ) :
    (hstack3 xs ys zs).length = min xs.length (min ys.length zs.length) := by
  simp [hstack3, List.length_zipWith, List.length_zip]

/-- Helper: element of the stacked rows from the three columns. -/
lemma hstack3_getElem? (xs ys : List ℚ) (zs : List ℕ) (i : ℕ) (a b : ℚ) (n : ℕ)
    (hxs : xs[i]? = some a) (hys : ys[i]? = some b) (hzs : zs[i]? = some n) :
    (hstack3 xs ys zs)[i]? = some (a, b, (n : ℚ)) := by
  have hzip : (ys.zip zs)[i]? = some (b, n) := by
    rw [show ys.zip zs = List.zipWith Prod.mk ys zs from rfl, List.getElem?_zipWith, hys, hzs]
  rw [hstack3, List.getElem?_zipWith, hxs, hzip]

/-- Helper: length of the arange column. -/
lemma arange_length (start stop step : ℚ) :
    (arange start stop step).length = Int.toNat ⌈(stop - start) / step⌉ := by
  unfold arange
  rw [List.length_map, List.length_range]

/-- Helper: element of the arange column. -/
lemma arange_getElem? (start stop step : ℚ) (k : ℕ)
    (h : k < Int.toNat ⌈(stop - start) / step⌉) :
    (arange start stop step)[k]? = some (start + (k : ℚ) * step) := by
  unfold arange
  rw [List.getElem?_map, List.getElem?_range h]
  rfl

/-- Helper: length of the uniform generator output, twice the number of arange
steps. -/
lemma generateHatching_length (c s : ℚ) (paths : List PolyPath) (r h : ℚ) :
    (BaseHatcher.generateHatching c s paths r h).length =
      2 * (arange (-r) r h).length := by
  unfold BaseHatcher.generateHatching
  rw [List.length_map, hstack3_length, resize2_length, intArange2_length, tile2_length]
  omega

/-- A point p lies on the closed segment with the given endpoints. -/
def pointOnSegment (p a b : Point) : Prop :=
  ∃ t : ℚ, 0 ≤ t ∧ t ≤ 1 ∧ p = (a.1 + t * (b.1 - a.1), a.2 + t * (b.2 - a.2))

/-- Claim C6: for every boundary and hatch spacing h > 0, in the unclipped
output of the uniform generator the two endpoints of the k-th segment (rows
2k and 2k+1) carry the same integer order tag k; since the tag of the k-th
segment is exactly k, tags start at 0, are contiguous, and strictly increase
with k. The final conjunct records that the output has one row pair per
arange step. -/
theorem c6_segment_tags (c s : ℚ) (paths : List PolyPath) (r h : ℚ)
    (hpos : 0 < h) (k : ℕ)
    (hk : 2 * k + 1 < (BaseHatcher.generateHatching c s paths r h).length) :
    ((BaseHatcher.generateHatching c s paths r h).getD (2 * k) (0, 0, 0)).2.2 = (k : ℚ) ∧
    ((BaseHatcher.generateHatching c s paths r h).getD (2 * k + 1) (0, 0, 0)).2.2 = (k : ℚ) ∧
    (BaseHatcher.generateHatching c s paths r h).length = 2 * (arange (-r) r h).length := by
  have hlen := generateHatching_length c s paths r h
  have hk2 : 2 * k + 1 < 2 * (arange (-r) r h).length := by omega
  have hkx : k < (arange (-r) r h).length := by omega
  have hxlen : (tile2 (arange (-r) r h)).length = 2 * (arange (-r) r h).length :=
    tile2_length _
  obtain ⟨xk, hxk⟩ : ∃ xk, (arange (-r) r h)[k]? = some xk :=
    ⟨_, List.getElem?_eq_getElem hkx⟩
  have hrow : ∀ j, j < 2 * (arange (-r) r h).length → j / 2 = k →
      (tile2 (arange (-r) r h))[j]? = some xk →
      (BaseHatcher.generateHatching c s paths r h)[j]? =
        some (rotTrans c s (bboxCentre paths).1 (bboxCentre paths).2
          (xk, if j % 2 = 0 then -r else r, (k : ℚ))) := by
    intro j hj hj2 hjx
    have hys : (resize2 (-r) r (tile2 (arange (-r) r h)).length)[j]? =
        some (if j % 2 = 0 then -r else r) :=
      resize2_getElem? _ _ _ j (by omega)
    have hzs : (intArange2 0 (tile2 (arange (-r) r h)).length)[j]? = some k := by
      have h1 := intArange2_getElem? 0 ((tile2 (arange (-r) r h)).length) j (by omega)
      rw [h1, Nat.zero_add, hj2]
    unfold BaseHatcher.generateHatching
    rw [List.getElem?_map,
      hstack3_getElem? _ _ _ j xk (if j % 2 = 0 then -r else r) k hjx hys hzs]
    rfl
  have heven : (BaseHatcher.generateHatching c s paths r h)[2 * k]? =
      some (rotTrans c s (bboxCentre paths).1 (bboxCentre paths).2
        (xk, -r, (k : ℚ))) := by
    have h1 := hrow (2 * k) (by omega) (by omega) (by rw [tile2_getElem?_even]; exact hxk)
    simpa using h1
  have hodd : (BaseHatcher.generateHatching c s paths r h)[2 * k + 1]? =
      some (rotTrans c s (bboxCentre paths).1 (bboxCentre paths).2
        (xk, r, (k : ℚ))) := by
    have h1 := hrow (2 * k + 1) (by omega) (by omega)
      (by rw [tile2_getElem?_odd]; exact hxk)
    have hmod : (2 * k + 1) % 2 = 1 := by omega
    simpa [hmod] using h1
  refine ⟨?_, ?_, hlen⟩
  · rw [List.getD_eq_getElem?_getD, heven]
    rfl
  · rw [List.getD_eq_getElem?_getD, hodd]
    rfl

/-- Claim C4 (amended): if the bounding-disk radius r is 0, the uniform
generator emits zero segments; if the hatch spacing satisfies h >= 2r with
r > 0, it emits exactly one segment, whose endpoints sit at local x = -r
before rotation — at perpendicular distance r from the bounding-box centre —
so the segment passes through the centre only in the degenerate case r = 0. -/
theorem c4_edge_cases (c s : ℚ) (paths : List PolyPath) (r h : ℚ)
    (hr2 : r * r = bboxRadiusSq paths) (hr0 : 0 ≤ r) :
    (r = 0 → BaseHatcher.generateHatching c s paths r h = []) ∧
    (0 < r → 2 * r ≤ h →
      BaseHatcher.generateHatching c s paths r h =
        [rotTrans c s (bboxCentre paths).1 (bboxCentre paths).2 (-r, -r, 0),
         rotTrans c s (bboxCentre paths).1 (bboxCentre paths).2 (-r, r, 0)]) := by
  constructor
  · intro h0
    subst h0
    simp [BaseHatcher.generateHatching, arange, tile2, hstack3]
  · intro hr hle
    have hh : 0 < h := lt_of_lt_of_le (by linarith) hle
    have hceil : (⌈(r - -r) / h⌉ : ℤ) = 1 := by
      rw [Int.ceil_eq_iff]
      constructor
      · have h2r : r - -r = 2 * r := by ring
        rw [h2r]
        push_cast
        have := div_pos (by linarith : (0 : ℚ) < 2 * r) hh
        linarith
      · push_cast
        rw [div_le_one hh]
        linarith
    have harange : arange (-r) r h = [-r] := by
      unfold arange
      rw [hceil, show Int.toNat 1 = 1 from rfl]
      simp [List.range_succ]
    unfold BaseHatcher.generateHatching
    rw [harange]
    have htile : tile2 [-r] = [-r, -r] := rfl
    rw [htile]
    simp [resize2, intArange2, hstack3, List.range_succ]

/-- Claim C4: the claim asserts the single segment emitted when h >= 2r passes
through the bounding-box centre. On the boundary [(0,0), (2,0)] the exact
bounding-disk radius is 1 and the centre is (1, 0); with hatch spacing 2 the
generator (at angle 0) emits exactly the segment from (0,-1) to (0,1), whose
points all have x = 0, so the centre (1, 0) does not lie on it. -/
theorem c4_counterexample :
    bboxRadiusSq [[((0 : ℚ), (0 : ℚ)), ((2 : ℚ), (0 : ℚ))]] = 1 * 1 ∧
    bboxCentre [[((0 : ℚ), (0 : ℚ)), ((2 : ℚ), (0 : ℚ))]] = (1, 0) ∧
    BaseHatcher.generateHatching 1 0 [[((0 : ℚ), (0 : ℚ)), ((2 : ℚ), (0 : ℚ))]] 1 2 =
      [((0 : ℚ), (-1 : ℚ), (0 : ℚ)), ((0 : ℚ), (1 : ℚ), (0 : ℚ))] ∧
    ¬ pointOnSegment (bboxCentre [[((0 : ℚ), (0 : ℚ)), ((2 : ℚ), (0 : ℚ))]])
        ((0 : ℚ), (-1 : ℚ)) ((0 : ℚ), (1 : ℚ)) := by
  have hbb : boundaryBoundingBox [[((0 : ℚ), (0 : ℚ)), ((2 : ℚ), (0 : ℚ))]] =
      ⟨0, 0, 2, 0⟩ := by
    simp [boundaryBoundingBox, polygonBoundingBox, listMin, listMax]
  have hc : bboxCentre [[((0 : ℚ), (0 : ℚ)), ((2 : ℚ), (0 : ℚ))]] = (1, 0) := by
    simp only [bboxCentre, hbb]
    norm_num
  refine ⟨?_, hc, ?_, ?_⟩
  · simp only [bboxRadiusSq, hbb, hc]
    norm_num
  · have hceil : (⌈((1 : ℚ) - -1) / 2⌉ : ℤ) = 1 := by
      rw [Int.ceil_eq_iff]
      constructor <;> norm_num
    have harange : arange (-1) 1 2 = [-1] := by
      unfold arange
      rw [hceil, show Int.toNat 1 = 1 from rfl]
      simp [List.range_succ]
    unfold BaseHatcher.generateHatching
    rw [hc, harange]
    have htile : tile2 [-1] = [-1, -1] := rfl
    rw [htile]
    simp [resize2, intArange2, hstack3, List.range_succ, rotTrans]
  · rw [hc]
    rintro ⟨t, ht0, ht1, heq⟩
    simp only [Prod.mk.injEq] at heq
    obtain ⟨h1, h2⟩ := heq
    norm_num at h1

/-- Witness for the amended claim C4 on the boundary [(0,0), (2,0)], whose
exact bounding-disk radius is 1, with hatch spacing 2. -/
theorem c4_witness :
    ((1 : ℚ) = 0 →
      BaseHatcher.generateHatching 1 0 [[((0 : ℚ), (0 : ℚ)), ((2 : ℚ), (0 : ℚ))]] 1 2 = []) ∧
    (0 < (1 : ℚ) → 2 * (1 : ℚ) ≤ 2 →
      BaseHatcher.generateHatching 1 0 [[((0 : ℚ), (0 : ℚ)), ((2 : ℚ), (0 : ℚ))]] 1 2 =
        [rotTrans 1 0 (bboxCentre [[((0 : ℚ), (0 : ℚ)), ((2 : ℚ), (0 : ℚ))]]).1
           (bboxCentre [[((0 : ℚ), (0 : ℚ)), ((2 : ℚ), (0 : ℚ))]]).2 (-1, -1, 0),
         rotTrans 1 0 (bboxCentre [[((0 : ℚ), (0 : ℚ)), ((2 : ℚ), (0 : ℚ))]]).1
           (bboxCentre [[((0 : ℚ), (0 : ℚ)), ((2 : ℚ), (0 : ℚ))]]).2 (-1, 1, 0)]) :=
  c4_edge_cases 1 0 [[((0 : ℚ), (0 : ℚ)), ((2 : ℚ), (0 : ℚ))]] 1 2
    (by simp [bboxRadiusSq, boundaryBoundingBox, polygonBoundingBox, bboxCentre,
          listMin, listMax]
        norm_num)
    (by norm_num)

/-- Witness for claim C6 on the boundary [(0,0), (2,0)] with radius 1, hatch
spacing 2 and segment index 0. -/
theorem c6_witness :
    ((BaseHatcher.generateHatching 1 0 [[((0 : ℚ), (0 : ℚ)), ((2 : ℚ), (0 : ℚ))]] 1 2).getD
        (2 * 0) (0, 0, 0)).2.2 = ((0 : ℕ) : ℚ) ∧
    ((BaseHatcher.generateHatching 1 0 [[((0 : ℚ), (0 : ℚ)), ((2 : ℚ), (0 : ℚ))]] 1 2).getD
        (2 * 0 + 1) (0, 0, 0)).2.2 = ((0 : ℕ) : ℚ) ∧
    (BaseHatcher.generateHatching 1 0 [[((0 : ℚ), (0 : ℚ)), ((2 : ℚ), (0 : ℚ))]] 1 2).length =
      2 * (arange (-1) 1 2).length :=
  c6_segment_tags 1 0 [[((0 : ℚ), (0 : ℚ)), ((2 : ℚ), (0 : ℚ))]] 1 2 (by norm_num) 0
    (by rw [generateHatching_length, arange_length]
        have hceil : (⌈((1 : ℚ) - -1) / 2⌉ : ℤ) = 1 := by
          rw [Int.ceil_eq_iff]
          constructor <;> norm_num
        rw [hceil]
        norm_num)

namespace BasicIslandHatcher

/-- Embedding of the island count of BasicIslandHatcher.generateHatching
(line 1094): numIslands = int(2 * bboxRadius / islandWidth) + 1. -/
def numIslands (r islandWidth : ℚ) : ℤ :=
  ratInt (2 * r / islandWidth) + 1

/-- Embedding of the left x extent of island column i (line 1103):
startX = -bboxRadius + i * islandWidth - islandOverlap. -/
def islandStartX (r islandWidth islandOverlap : ℚ) (i : ℕ) : ℚ :=
  -r + (i : ℚ) * islandWidth - islandOverlap

/-- Embedding of the right x extent of island column i (line 1104):
endX = startX + islandWidth + islandOverlap. -/
def islandEndX (r islandWidth islandOverlap : ℚ) (i : ℕ) : ℚ :=
  islandStartX r islandWidth islandOverlap i + islandWidth + islandOverlap

/-- Embedding of the lower y extent of island row j (line 1106). -/
def islandStartY (r islandWidth islandOverlap : ℚ) (j : ℕ) : ℚ :=
  -r + (j : ℚ) * islandWidth - islandOverlap

/-- Embedding of the upper y extent of island row j (line 1107). -/
def islandEndY (r islandWidth islandOverlap : ℚ) (j : ℕ) : ℚ :=
  islandStartY r islandWidth islandOverlap j + islandWidth + islandOverlap

/-- Embedding of the per-cell generation of BasicIslandHatcher.generateHatching
(lines 1100 to 1131): the branch on the truthiness of np.mod(i + j, 2) emits
horizontal segments (y values stepped by the hatch spacing and shifted by
np.mod(i + j, 2) * islandOffset * hatchSpacing, x cycling between the cell
extents) when i + j is odd, and vertical segments (the symmetric construction,
whose offset multiplier np.mod(i + j, 2) vanishes) when i + j is even. The
hatchOrder counter seeds the truncated half-integer tag ramp. -/
def islandCellRows (r islandWidth islandOverlap islandOffset hatchSpacing : ℚ)
    (hatchOrder : ℕ) (i j : ℕ) : List Row :=
  if (i + j) % 2 = 1 then
    let y := tile2 (arange
      (islandStartY r islandWidth islandOverlap j +
        (((i + j) % 2 : ℕ) : ℚ) * islandOffset * hatchSpacing)
      (islandEndY r islandWidth islandOverlap j +
        (((i + j) % 2 : ℕ) : ℚ) * islandOffset * hatchSpacing)
      hatchSpacing)
    let x := resize2 (islandStartX r islandWidth islandOverlap i)
                     (islandEndX r islandWidth islandOverlap i) y.length
    let z := intArange2 hatchOrder y.length
    hstack3 x y z
  else
    let x := tile2 (arange
      (islandStartX r islandWidth islandOverlap i +
        (((i + j) % 2 : ℕ) : ℚ) * islandOffset * hatchSpacing)
      (islandEndX r islandWidth islandOverlap i +
        (((i + j) % 2 : ℕ) : ℚ) * islandOffset * hatchSpacing)
      hatchSpacing)
    let y := resize2 (islandStartY r islandWidth islandOverlap j)
                     (islandEndY r islandWidth islandOverlap j) x.length
    let z := intArange2 hatchOrder x.length
    hstack3 x y z

/-- Embedding of BasicIslandHatcher.generateHatching: the double loop over the
island grid accumulates the per-cell rows and advances the hatch order by the
number of segments of each cell, then the global rotation and translation to
the bounding-box centre is applied. -/
def generateHatching (c s : ℚ) (paths : List PolyPath)
    (r islandWidth islandOverlap islandOffset hatchSpacing : ℚ) : List Row :=
  let centre := bboxCentre paths
  let n := Int.toNat (numIslands r islandWidth)
  let res := (List.range n).foldl
    (fun (st : ℕ × List Row) i =>
      (List.range n).foldl
        (fun (st2 : ℕ × List Row) j =>
          let cell := islandCellRows r islandWidth islandOverlap islandOffset
            hatchSpacing st2.1 i j
          (st2.1 + cell.length / 2, st2.2 ++ cell))
        st)
    (0, [])
  res.2.map (rotTrans c s centre.1 centre.2)

end BasicIslandHatcher

/-- Helper: rows stacked with a tiled x column, a cycled y column and the tag
ramp, at the two positions of segment k. -/
lemma rowsTileX_getElem? (l : List ℚ) (a b : ℚ) (ho k : ℕ) (xk : ℚ)
    (hkl : k < l.length) (hxk : l[k]? = some xk) :
    (hstack3 (tile2 l) (resize2 a b (tile2 l).length)
        (intArange2 ho (tile2 l).length))[2 * k]? = some (xk, a, ((ho + k : ℕ) : ℚ)) ∧
    (hstack3 (tile2 l) (resize2 a b (tile2 l).length)
        (intArange2 ho (tile2 l).length))[2 * k + 1]? = some (xk, b, ((ho + k : ℕ) : ℚ)) := by
  have hlen : (tile2 l).length = 2 * l.length := tile2_length l
  constructor
  · rw [hstack3_getElem? _ _ _ (2 * k) xk a (ho + k)]
    · rw [tile2_getElem?_even]
      exact hxk
    · rw [resize2_getElem? _ _ _ _ (by omega)]
      simp
    · rw [intArange2_getElem? _ _ _ (by omega)]
      congr 1
      omega
  · rw [hstack3_getElem? _ _ _ (2 * k + 1) xk b (ho + k)]
    · rw [tile2_getElem?_odd]
      exact hxk
    · rw [resize2_getElem? _ _ _ _ (by omega)]
      simp [Nat.mul_add_mod]
    · rw [intArange2_getElem? _ _ _ (by omega)]
      congr 1
      omega

/-- Helper: rows stacked with a cycled x column, a tiled y column and the tag
ramp, at the two positions of segment k. -/
lemma rowsTileY_getElem? (l : List ℚ) (a b : ℚ) (ho k : ℕ) (yk : ℚ)
    (hkl : k < l.length) (hyk : l[k]? = some yk) :
    (hstack3 (resize2 a b (tile2 l).length) (tile2 l)
        (intArange2 ho (tile2 l).length))[2 * k]? = some (a, yk, ((ho + k : ℕ) : ℚ)) ∧
    (hstack3 (resize2 a b (tile2 l).length) (tile2 l)
        (intArange2 ho (tile2 l).length))[2 * k + 1]? = some (b, yk, ((ho + k : ℕ) : ℚ)) := by
  have hlen : (tile2 l).length = 2 * l.length := tile2_length l
  constructor
  · rw [hstack3_getElem? _ _ _ (2 * k) a yk (ho + k)]
    · rw [resize2_getElem? _ _ _ _ (by omega)]
      simp
    · rw [tile2_getElem?_even]
      exact hyk
    · rw [intArange2_getElem? _ _ _ (by omega)]
      congr 1
      omega
  · rw [hstack3_getElem? _ _ _ (2 * k + 1) b yk (ho + k)]
    · rw [resize2_getElem? _ _ _ _ (by omega)]
      simp [Nat.mul_add_mod]
    · rw [tile2_getElem?_odd]
      exact hyk
    · rw [intArange2_getElem? _ _ _ (by omega)]
      congr 1
      omega

/-- Claim C8: in BasicIslandHatcher.generateHatching, for every grid cell
(i, j) and every segment k of the cell: if (i + j) is odd the cell emits
horizontal segments whose endpoints span x from startX to endX and whose y
positions are shifted by the offset fraction times the hatch spacing (y =
startY + f*h + k*h); if (i + j) is even the cell emits vertical segments
spanning y from startY to endY with no offset applied (x = startX + k*h).
Both endpoints carry the running order tag ho + k. -/
theorem c8_island_cells (r w o f h : ℚ) (ho i j k : ℕ)
    (hk : 2 * k + 1 < (BasicIslandHatcher.islandCellRows r w o f h ho i j).length) :
    (BasicIslandHatcher.islandCellRows r w o f h ho i j).getD (2 * k) (0, 0, 0) =
      (if (i + j) % 2 = 1 then
        (BasicIslandHatcher.islandStartX r w o i,
         BasicIslandHatcher.islandStartY r w o j + f * h + (k : ℚ) * h,
         ((ho + k : ℕ) : ℚ))
      else
        (BasicIslandHatcher.islandStartX r w o i + (k : ℚ) * h,
         BasicIslandHatcher.islandStartY r w o j,
         ((ho + k : ℕ) : ℚ))) ∧
    (BasicIslandHatcher.islandCellRows r w o f h ho i j).getD (2 * k + 1) (0, 0, 0) =
      (if (i + j) % 2 = 1 then
        (BasicIslandHatcher.islandEndX r w o i,
         BasicIslandHatcher.islandStartY r w o j + f * h + (k : ℚ) * h,
         ((ho + k : ℕ) : ℚ))
      else
        (BasicIslandHatcher.islandStartX r w o i + (k : ℚ) * h,
         BasicIslandHatcher.islandEndY r w o j,
         ((ho + k : ℕ) : ℚ))) := by
  by_cases hpar : (i + j) % 2 = 1
  · have hcell : BasicIslandHatcher.islandCellRows r w o f h ho i j =
        hstack3
          (resize2 (BasicIslandHatcher.islandStartX r w o i)
            (BasicIslandHatcher.islandEndX r w o i)
            (tile2 (arange (BasicIslandHatcher.islandStartY r w o j + f * h)
              (BasicIslandHatcher.islandEndY r w o j + f * h) h)).length)
          (tile2 (arange (BasicIslandHatcher.islandStartY r w o j + f * h)
            (BasicIslandHatcher.islandEndY r w o j + f * h) h))
          (intArange2 ho
            (tile2 (arange (BasicIslandHatcher.islandStartY r w o j + f * h)
              (BasicIslandHatcher.islandEndY r w o j + f * h) h)).length) := by
      unfold BasicIslandHatcher.islandCellRows
      rw [if_pos hpar, hpar]
      norm_num
    rw [hcell] at hk
    rw [hcell, if_pos hpar, if_pos hpar]
    rw [hstack3_length, resize2_length, intArange2_length, tile2_length] at hk
    simp only [min_self] at hk
    have hkL : k < (arange (BasicIslandHatcher.islandStartY r w o j + f * h)
        (BasicIslandHatcher.islandEndY r w o j + f * h) h).length := by omega
    have hLk : (arange (BasicIslandHatcher.islandStartY r w o j + f * h)
        (BasicIslandHatcher.islandEndY r w o j + f * h) h)[k]? =
        some (BasicIslandHatcher.islandStartY r w o j + f * h + (k : ℚ) * h) := by
      rw [arange_length] at hkL
      exact arange_getElem? _ _ _ k hkL
    obtain ⟨he, hodd⟩ := rowsTileY_getElem? _
      (BasicIslandHatcher.islandStartX r w o i)
      (BasicIslandHatcher.islandEndX r w o i) ho k _ hkL hLk
    constructor
    · rw [List.getD_eq_getElem?_getD, he]
      rfl
    · rw [List.getD_eq_getElem?_getD, hodd]
      rfl
  · have hpar0 : (i + j) % 2 = 0 := by omega
    have hcell : BasicIslandHatcher.islandCellRows r w o f h ho i j =
        hstack3
          (tile2 (arange (BasicIslandHatcher.islandStartX r w o i)
            (BasicIslandHatcher.islandEndX r w o i) h))
          (resize2 (BasicIslandHatcher.islandStartY r w o j)
            (BasicIslandHatcher.islandEndY r w o j)
            (tile2 (arange (BasicIslandHatcher.islandStartX r w o i)
              (BasicIslandHatcher.islandEndX r w o i) h)).length)
          (intArange2 ho
            (tile2 (arange (BasicIslandHatcher.islandStartX r w o i)
              (BasicIslandHatcher.islandEndX r w o i) h)).length) := by
      unfold BasicIslandHatcher.islandCellRows
      rw [if_neg hpar, hpar0]
      norm_num
    rw [hcell] at hk
    rw [hcell, if_neg hpar, if_neg hpar]
    rw [hstack3_length, resize2_length, intArange2_length, tile2_length] at hk
    simp only [min_self] at hk
    have hkL : k < (arange (BasicIslandHatcher.islandStartX r w o i)
        (BasicIslandHatcher.islandEndX r w o i) h).length := by omega
    have hLk : (arange (BasicIslandHatcher.islandStartX r w o i)
        (BasicIslandHatcher.islandEndX r w o i) h)[k]? =
        some (BasicIslandHatcher.islandStartX r w o i + (k : ℚ) * h) := by
      rw [arange_length] at hkL
      exact arange_getElem? _ _ _ k hkL
    obtain ⟨he, hodd⟩ := rowsTileX_getElem? _
      (BasicIslandHatcher.islandStartY r w o j)
      (BasicIslandHatcher.islandEndY r w o j) ho k _ hkL hLk
    constructor
    · rw [List.getD_eq_getElem?_getD, he]
      rfl
    · rw [List.getD_eq_getElem?_getD, hodd]
      rfl

/-- Witness for claim C8 at radius 1, island width 2, overlap 0, offset
fraction 1/2, hatch spacing 1, on the odd cell (0, 1), segment 0. -/
theorem c8_witness :
    (BasicIslandHatcher.islandCellRows 1 2 0 (1 / 2) 1 0 0 1).getD (2 * 0) (0, 0, 0) =
      (if (0 + 1) % 2 = 1 then
        (BasicIslandHatcher.islandStartX 1 2 0 0,
         BasicIslandHatcher.islandStartY 1 2 0 1 + 1 / 2 * 1 + ((0 : ℕ) : ℚ) * 1,
         ((0 + 0 : ℕ) : ℚ))
      else
        (BasicIslandHatcher.islandStartX 1 2 0 0 + ((0 : ℕ) : ℚ) * 1,
         BasicIslandHatcher.islandStartY 1 2 0 1,
         ((0 + 0 : ℕ) : ℚ))) ∧
    (BasicIslandHatcher.islandCellRows 1 2 0 (1 / 2) 1 0 0 1).getD (2 * 0 + 1) (0, 0, 0) =
      (if (0 + 1) % 2 = 1 then
        (BasicIslandHatcher.islandEndX 1 2 0 0,
         BasicIslandHatcher.islandStartY 1 2 0 1 + 1 / 2 * 1 + ((0 : ℕ) : ℚ) * 1,
         ((0 + 0 : ℕ) : ℚ))
      else
        (BasicIslandHatcher.islandStartX 1 2 0 0 + ((0 : ℕ) : ℚ) * 1,
         BasicIslandHatcher.islandEndY 1 2 0 1,
         ((0 + 0 : ℕ) : ℚ))) :=
  c8_island_cells 1 2 0 (1 / 2) 1 0 0 1 0
    (by
      have hc2 : (⌈(2 : ℚ)⌉ : ℤ) = 2 := by
        rw [Int.ceil_eq_iff]
        constructor <;> norm_num
      norm_num [BasicIslandHatcher.islandCellRows, BasicIslandHatcher.islandStartX,
        BasicIslandHatcher.islandEndX, BasicIslandHatcher.islandStartY,
        BasicIslandHatcher.islandEndY, hstack3_length, resize2_length,
        intArange2_length, tile2_length, arange_length, hc2]
      omega)

/-- Claim C5: the claim states that clipLines on an empty list of subject
lines returns an empty collection of clipped paths. The source returns Python
None (Option.none) instead, which is not a collection: with any engine and
boundary, the result is not some []. -/
theorem c5_counterexample :
    BaseHatcher.clipLines (fun _ _ => []) [] [] ≠ some [] := by
  unfold BaseHatcher.clipLines
  simp

/-- Claim C5 (amended): clipLines applied to an empty list of subject lines
returns the Python None sentinel (Option.none), not an empty collection, for
every boundary and any clip engine; the engine is never consulted. -/
theorem c5_empty_lines (clipEngine : List PolyPath → List Row → List (Row × Row))
    (paths : List PolyPath) :
    BaseHatcher.clipLines clipEngine paths [] = none := rfl

/-- Modelled from the spec: the geometry records of the Layer data model
(section 3). The geometry module (pyslm.geometry) is not part of the sources
under verification; per the spec a ContourGeometry is a closed polyline plus a
subtype, a HatchGeometry is a flat even-length array of points interpreted as
consecutive start and end pairs, and every record references a model and a
build style through the identifier pair (mid, bid). -/
inductive LayerGeometry where
  | contourGeom (coords : List Point) (subType : String) (mid bid : ℤ)
  | hatchGeom (coords : List Point) (mid bid : ℤ)

/-- Returns true exactly on contour records. -/
def LayerGeometry.isContourRec : LayerGeometry → Bool
  | .contourGeom _ _ _ _ => true
  | .hatchGeom _ _ _ => false

/-- Returns true exactly on hatch records. -/
def LayerGeometry.isHatchRec : LayerGeometry → Bool
  | .contourGeom _ _ _ _ => false
  | .hatchGeom _ _ _ => true

/-- Modelled from the spec: a Layer is an ordered list of geometry records
(section 3); the two integer arguments of the Layer(0, 0) constructor are kept
as plain fields. -/
structure Layer where
  layerId : ℕ
  layerZ : ℕ
  geometry : List LayerGeometry

/-- The configuration attributes of the Hatcher class, with the defaults set
in its constructor (source lines 596 to 613). -/
structure HatchCfg where
  scanContourFirst : Bool := false
  numInnerContours : ℕ := 1
  numOuterContours : ℕ := 1
  spotCompensation : ℚ := 8 / 100
  contourOffset : ℚ := 8 / 100
  volOffsetHatch : ℚ := 8 / 100
  layerAngleIncrement : ℚ := 0
  hatchDistance : ℚ := 8 / 100
  hatchAngle : ℚ := 45
  hatchSortMethod : Option (List Point → List Point) := none
  hatchingEnabled : Bool := true

namespace Hatcher

/-- One iteration of the outer contour loop of Hatcher.hatch (lines 760 to
772): after the first iteration the running offset is decremented by the
contour offset, the boundary is offset, and each resulting path is closed by
appending its first point and recorded as an outer ContourGeometry. The state
carries (running offset, recorded contours, configuration). -/
def outerContourStep (offsetBoundaryFn : List PolyPath → ℚ → List PolyPath)
    (boundaryFeature : List PolyPath)
    (st : ℚ × List LayerGeometry × HatchCfg) (i : ℕ) :
    ℚ × List LayerGeometry × HatchCfg :=
  let cfg := st.2.2
  let offsetDelta := if 0 < i then st.1 - cfg.contourOffset else st.1
  let ob := offsetBoundaryFn boundaryFeature offsetDelta
  (offsetDelta,
   st.2.1 ++ ob.map (fun path =>
     LayerGeometry.contourGeom (path ++ [path.headD ((0 : ℚ), (0 : ℚ))]) "outer" 0 0),
   cfg)

/-- One iteration of the inner contour loop of Hatcher.hatch (lines 775 to
788): the running offset is decremented unless there are no outer contours
and this is the first inner iteration, and each offset path is recorded as an
inner ContourGeometry. -/
def innerContourStep (offsetBoundaryFn : List PolyPath → ℚ → List PolyPath)
    (boundaryFeature : List PolyPath)
    (st : ℚ × List LayerGeometry × HatchCfg) (i : ℕ) :
    ℚ × List LayerGeometry × HatchCfg :=
  let cfg := st.2.2
  let offsetDelta :=
    if (cfg.numOuterContours = 0 ∧ 0 < i) ∨ 0 < cfg.numOuterContours then
      st.1 - cfg.contourOffset
    else st.1
  let ob := offsetBoundaryFn boundaryFeature offsetDelta
  (offsetDelta,
   st.2.1 ++ ob.map (fun path =>
     LayerGeometry.contourGeom (path ++ [path.headD ((0 : ℚ), (0 : ℚ))]) "inner" 0 0),
   cfg)

/-- Embedding of Hatcher.hatch (lines 740 to 887). The pyclipr offset engine
(offsetBoundaryFn), the hatch generator dispatched through self (subclasses
override generateHatching) and the pyclipr clip engine are function
parameters. An empty boundary returns Python None (ok none). The contour
loops thread the configuration state explicitly; the hatch block computes the
effective angle, generates and clips the hatches, sorts the clipped segments
by the tag of their first vertex, flattens them to consecutive (start, end)
point pairs, optionally applies the configured sort method, and records a
single HatchGeometry. If clipLines returns None the subsequent len() call in
the source raises a TypeError, embedded as an error result. Finally the layer
lists contours then hatches when scanContourFirst is set, hatches then
contours otherwise. The constant-false per-region block of lines 845 to 877
is dead code and is not part of the embedding. -/
def hatch (cfg : HatchCfg)
    (offsetBoundaryFn : List PolyPath → ℚ → List PolyPath)
    (generateHatchingFn : List PolyPath → ℚ → ℚ → List Row)
    (clipEngine : List PolyPath → List Row → List (Row × Row))
    (boundaryFeature : List PolyPath) :
    Except String (Option Layer) × HatchCfg :=
  if boundaryFeature.length = 0 then (Except.ok none, cfg)
  else
    let st1 := (List.range cfg.numOuterContours).foldl
      (outerContourStep offsetBoundaryFn boundaryFeature)
      (initialOffsetDelta cfg.spotCompensation, [], cfg)
    let st2 := (List.range st1.2.2.numInnerContours).foldl
      (innerContourStep offsetBoundaryFn boundaryFeature) st1
    let cfg2 := st2.2.2
    let contourLayerGeometries := st2.2.1
    let offsetDelta2 :=
      if 0 < cfg2.numInnerContours + cfg2.numOuterContours then
        st2.1 - cfg2.volOffsetHatch
      else st2.1
    let curBoundary := offsetBoundaryFn boundaryFeature offsetDelta2
    let result : Except String (Option Layer) :=
      if cfg2.hatchingEnabled = true ∧ 0 < curBoundary.length then
        let hatches := generateHatchingFn curBoundary cfg2.hatchDistance
          (layerHatchAngle cfg2.hatchAngle cfg2.layerAngleIncrement)
        match BaseHatcher.clipLines clipEngine curBoundary hatches with
        | none => Except.error "object of type NoneType has no len"
        | some clippedPaths =>
          let hatchLayerGeometries :=
            if 0 < clippedPaths.length then
              let clippedLines := clippedPaths.mergeSort
                (fun a b => decide (a.1.2.2 ≤ b.1.2.2))
              let hatchVectors := clippedLines.flatMap
                (fun seg => [(seg.1.1, seg.1.2.1), (seg.2.1, seg.2.2.1)])
              let hatchVectors2 :=
                match cfg2.hatchSortMethod with
                | some sortFn => sortFn hatchVectors
                | none => hatchVectors
              [LayerGeometry.hatchGeom hatchVectors2 0 0]
            else []
          Except.ok (some
            { layerId := 0, layerZ := 0,
              geometry :=
                if cfg2.scanContourFirst then
                  contourLayerGeometries ++ hatchLayerGeometries
                else
                  hatchLayerGeometries ++ contourLayerGeometries })
      else
        Except.ok (some
          { layerId := 0, layerZ := 0,
            geometry :=
              if cfg2.scanContourFirst then
                contourLayerGeometries ++ ([] : List LayerGeometry)
              else
                ([] : List LayerGeometry) ++ contourLayerGeometries })
    (result, cfg2)

end Hatcher

/-- Helper: a fold over the contour state whose step keeps the configuration
component leaves the configuration unchanged. -/
lemma foldl_cfg_invariant (f : (ℚ × List LayerGeometry × HatchCfg) → ℕ →
      (ℚ × List LayerGeometry × HatchCfg))
    (hf : ∀ st i, (f st i).2.2 = st.2.2) (l : List ℕ)
    (st : ℚ × List LayerGeometry × HatchCfg) :
    (l.foldl f st).2.2 = st.2.2 := by
  induction l generalizing st with
  | nil => rfl
  | cons a t ih => rw [List.foldl_cons, ih, hf]

/-- Helper: the two contour loops of Hatcher.hatch leave the configuration
component of the state unchanged. -/
lemma contour_folds_cfg (offsetBoundaryFn : List PolyPath → ℚ → List PolyPath)
    (boundaryFeature : List PolyPath) (n1 n2 : ℕ)
    (init : ℚ × List LayerGeometry × HatchCfg) :
    ((List.range n2).foldl (Hatcher.innerContourStep offsetBoundaryFn boundaryFeature)
      ((List.range n1).foldl (Hatcher.outerContourStep offsetBoundaryFn boundaryFeature)
        init)).2.2 = init.2.2 := by
  rw [foldl_cfg_invariant (Hatcher.innerContourStep offsetBoundaryFn boundaryFeature)
      (fun st i => rfl),
    foldl_cfg_invariant (Hatcher.outerContourStep offsetBoundaryFn boundaryFeature)
      (fun st i => rfl)]

/-- Claim C9: Hatcher.hatch is pure with respect to the configuration: the
configuration component threaded through the whole computation (the contour
loops read and carry it, no statement assigns to it) is returned unchanged,
whatever the boundary, engines and generator. -/
theorem c9_config_pure (cfg : HatchCfg)
    (offsetBoundaryFn : List PolyPath → ℚ → List PolyPath)
    (generateHatchingFn : List PolyPath → ℚ → ℚ → List Row)
    (clipEngine : List PolyPath → List Row → List (Row × Row))
    (boundaryFeature : List PolyPath) :
    (Hatcher.hatch cfg offsetBoundaryFn generateHatchingFn clipEngine boundaryFeature).2 =
      cfg := by
  unfold Hatcher.hatch
  split
  · rfl
  · exact contour_folds_cfg _ _ _ _ _

/-- Helper: one outer contour step only appends contour records. -/
lemma outerContourStep_records (offsetBoundaryFn : List PolyPath → ℚ → List PolyPath)
    (boundaryFeature : List PolyPath) (st : ℚ × List LayerGeometry × HatchCfg) (i : ℕ)
    (g : LayerGeometry)
    (hg : g ∈ (Hatcher.outerContourStep offsetBoundaryFn boundaryFeature st i).2.1) :
    g ∈ st.2.1 ∨ g.isContourRec = true := by
  unfold Hatcher.outerContourStep at hg
  rw [List.mem_append] at hg
  rcases hg with hg | hg
  · exact Or.inl hg
  · right
    obtain ⟨p, _, rfl⟩ := List.mem_map.mp hg
    rfl

/-- Helper: one inner contour step only appends contour records. -/
lemma innerContourStep_records (offsetBoundaryFn : List PolyPath → ℚ → List PolyPath)
    (boundaryFeature : List PolyPath) (st : ℚ × List LayerGeometry × HatchCfg) (i : ℕ)
    (g : LayerGeometry)
    (hg : g ∈ (Hatcher.innerContourStep offsetBoundaryFn boundaryFeature st i).2.1) :
    g ∈ st.2.1 ∨ g.isContourRec = true := by
  unfold Hatcher.innerContourStep at hg
  rw [List.mem_append] at hg
  rcases hg with hg | hg
  · exact Or.inl hg
  · right
    obtain ⟨p, _, rfl⟩ := List.mem_map.mp hg
    rfl

/-- Helper: folding a step that only appends contour records keeps every
record of the accumulator either initial or a contour. -/
lemma foldl_contour_records
    (f : (ℚ × List LayerGeometry × HatchCfg) → ℕ → (ℚ × List LayerGeometry × HatchCfg))
    (hf : ∀ st i g, g ∈ (f st i).2.1 → g ∈ st.2.1 ∨ LayerGeometry.isContourRec g = true)
    (l : List ℕ) (st : ℚ × List LayerGeometry × HatchCfg) (g : LayerGeometry)
    (hg : g ∈ (l.foldl f st).2.1) :
    g ∈ st.2.1 ∨ LayerGeometry.isContourRec g = true := by
  induction l generalizing st with
  | nil => exact Or.inl hg
  | cons a t ih =>
    rw [List.foldl_cons] at hg
    rcases ih (f st a) hg with h | h
    · exact hf st a g h
    · exact Or.inr h

/-- Helper: every record accumulated by the two contour loops of Hatcher.hatch
from an empty accumulator is a contour record. -/
lemma contour_folds_records (offsetBoundaryFn : List PolyPath → ℚ → List PolyPath)
    (boundaryFeature : List PolyPath) (n1 n2 : ℕ) (d : ℚ) (cfg : HatchCfg)
    (g : LayerGeometry)
    (hg : g ∈ ((List.range n2).foldl
        (Hatcher.innerContourStep offsetBoundaryFn boundaryFeature)
        ((List.range n1).foldl (Hatcher.outerContourStep offsetBoundaryFn boundaryFeature)
          (d, [], cfg))).2.1) :
    LayerGeometry.isContourRec g = true := by
  rcases foldl_contour_records _ (innerContourStep_records offsetBoundaryFn boundaryFeature)
      _ _ g hg with h | h
  · rcases foldl_contour_records _ (outerContourStep_records offsetBoundaryFn boundaryFeature)
        _ _ g h with h2 | h2
    · exact absurd h2 (List.not_mem_nil g)
    · exact h2
  · exact h

/-- Claim C7: for every input on which Hatcher.hatch returns a Layer, the
geometry of that Layer is a block of contour records and a block of hatch
records, never interleaved: contours then hatches when scanContourFirst is
true, hatches then contours otherwise. -/
theorem c7_layer_order (cfg : HatchCfg)
    (offsetBoundaryFn : List PolyPath → ℚ → List PolyPath)
    (generateHatchingFn : List PolyPath → ℚ → ℚ → List Row)
    (clipEngine : List PolyPath → List Row → List (Row × Row))
    (boundaryFeature : List PolyPath) (layer : Layer)
    (hres : (Hatcher.hatch cfg offsetBoundaryFn generateHatchingFn clipEngine
        boundaryFeature).1 = Except.ok (some layer)) :
    ∃ cs hs : List LayerGeometry,
      (∀ g ∈ cs, LayerGeometry.isContourRec g = true) ∧
      (∀ g ∈ hs, LayerGeometry.isHatchRec g = true) ∧
      layer.geometry = if cfg.scanContourFirst then cs ++ hs else hs ++ cs := by
  unfold Hatcher.hatch at hres
  split at hres
  · simp at hres
  · dsimp only at hres
    rw [contour_folds_cfg] at hres
    dsimp only at hres
    split at hres
    all_goals
      split at hres
    case isTrue.isTrue | isFalse.isTrue =>
      split at hres
      · simp at hres
      · simp only [Except.ok.injEq, Option.some.injEq] at hres
        subst hres
        refine ⟨_, _, ?_, ?_, rfl⟩
        · intro g hg
          exact contour_folds_records _ _ _ _ _ _ g hg
        · intro g hg
          split at hg
          · rw [List.mem_singleton] at hg
            subst hg
            rfl
          · exact absurd hg (List.not_mem_nil g)
    case isTrue.isFalse | isFalse.isFalse =>
      simp only [Except.ok.injEq, Option.some.injEq] at hres
      subst hres
      refine ⟨_, ([] : List LayerGeometry), ?_, ?_, rfl⟩
      · intro g hg
        exact contour_folds_records _ _ _ _ _ _ g hg
      · intro g hg
        exact absurd hg (List.not_mem_nil g)

/-- Witness for claim C7: with contours and hatching disabled and a trivial
offset engine, hatch returns the empty Layer and the ordering property holds. -/
theorem c7_witness :
    ∃ cs hs : List LayerGeometry,
      (∀ g ∈ cs, LayerGeometry.isContourRec g = true) ∧
      (∀ g ∈ hs, LayerGeometry.isHatchRec g = true) ∧
      (Layer.mk 0 0 []).geometry =
        if ({ hatchingEnabled := false, numOuterContours := 0,
              numInnerContours := 0 } : HatchCfg).scanContourFirst then cs ++ hs
        else hs ++ cs :=
  c7_layer_order
    { hatchingEnabled := false, numOuterContours := 0, numInnerContours := 0 }
    (fun _ _ => []) (fun _ _ _ => []) (fun _ _ => [])
    [[((0 : ℚ), (0 : ℚ))]] (Layer.mk 0 0 []) rfl

/-- Modelled from the spec: a build style, a laser parameter record
identified by bid, carrying the point distance (micrometres), laser power and
point exposure time (microseconds) used by the exposure-point utility
(sections 6 and 7); the BuildStyle model lives outside the verified sources. -/
structure BuildStyle where
  bid : ℤ
  pointDistance : ℚ
  laserPower : ℚ
  pointExposureTime : ℚ

/-- Modelled from the spec: a model record identified by mid owning a list of
build styles. -/
structure Model where
  mid : ℤ
  buildStyles : List BuildStyle

/-- The mid referenced by a geometry record. -/
def LayerGeometry.geomMid : LayerGeometry → ℤ
  | .contourGeom _ _ m _ => m
  | .hatchGeom _ m _ => m

/-- The bid referenced by a geometry record. -/
def LayerGeometry.geomBid : LayerGeometry → ℤ
  | .contourGeom _ _ _ b => b
  | .hatchGeom _ _ b => b

/-- Embedding of coords.reshape(-1, 2, 2): consecutive disjoint (start, end)
pairs of a flat point list. -/
def pairUp : List Point → List (Point × Point)
  | p0 :: p1 :: rest => (p0, p1) :: pairUp rest
  | _ => []

/-- Embedding of np.vstack applied to a Python list of arrays: concatenation,
raising ValueError on an empty list. -/
def npVstack (arrays : List (List (List ℚ))) : Except String (List (List ℚ)) :=
  if arrays.length = 0 then
    Except.error "need at least one array to concatenate"
  else
    Except.ok arrays.flatten

/-- Embedding of getExposurePoints (source lines 15 to 139). The numpy hypot
is a function parameter. For each geometry record the referenced model and
build style are looked up (next over a generator raises StopIteration when
nothing matches), a point distance below 1 micrometre raises ValueError, and
the record is discretised: for a hatch record, points step backward from the
second endpoint of each (start, end) pair along the negated unit direction;
for a contour record, points step forward from the first vertex of each edge.
Each per-record array is appended to a Python list which np.vstack finally
concatenates; an empty list makes np.vstack raise. -/
def getExposurePoints (hypot : ℚ → ℚ → ℚ) (layer : Layer) (models : List Model)
    (includePowerDeposited : Bool) : Except String (List (List ℚ)) := do
  let exposurePoints ← layer.geometry.foldlM
    (fun (acc : List (List (List ℚ))) layerGeom => do
      let model ← match models.find? (fun x => x.mid == layerGeom.geomMid) with
        | some m => Except.ok m
        | none => Except.error "StopIteration"
      let buildStyle ← match model.buildStyles.find?
          (fun x => x.bid == layerGeom.geomBid) with
        | some b => Except.ok b
        | none => Except.error "StopIteration"
      if buildStyle.pointDistance < 1 then
        Except.error "The point distance parameter in the buildstyle must be set"
      else
        let pointDistance := buildStyle.pointDistance * (1 / 1000)
        let energyPerExposure := buildStyle.laserPower *
          (buildStyle.pointExposureTime * (1 / 1000000))
        match layerGeom with
        | .hatchGeom coords _ _ =>
          let pts := (pairUp coords).flatMap (fun seg =>
            let dx := seg.2.1 - seg.1.1
            let dy := seg.2.2 - seg.1.2
            let lineDist := hypot dx dy
            let dirx := -1 * dx / lineDist
            let diry := -1 * dy / lineDist
            let numPoints := Int.toNat ⌈lineDist / pointDistance⌉
            (List.range numPoints).map (fun (t : ℕ) =>
              let px := seg.2.1 + pointDistance * (t : ℚ) * dirx
              let py := seg.2.2 + pointDistance * (t : ℚ) * diry
              if includePowerDeposited then [px, py, energyPerExposure]
              else [px, py]))
          Except.ok (acc ++ [pts])
        | .contourGeom coords _ _ _ =>
          let pts := (coords.zip coords.tail).flatMap (fun seg =>
            let dx := seg.2.1 - seg.1.1
            let dy := seg.2.2 - seg.1.2
            let lineDist := hypot dx dy
            let dirx := 1 * dx / lineDist
            let diry := 1 * dy / lineDist
            let numPoints := Int.toNat ⌈lineDist / pointDistance⌉
            (List.range numPoints).map (fun (t : ℕ) =>
              let px := seg.1.1 + pointDistance * (t : ℚ) * dirx
              let py := seg.1.2 + pointDistance * (t : ℚ) * diry
              if includePowerDeposited then [px, py, energyPerExposure]
              else [px, py]))
          Except.ok (acc ++ [pts]))
    []
  npVstack exposurePoints

/-- Claim C10: getExposurePoints applied to a Layer containing no
HatchGeometry or ContourGeometry records (in the spec data model the geometry
list holds only these two kinds, so such a layer has an empty geometry list)
raises an exception — np.vstack of the empty list of per-record arrays — and
never returns an empty point array, whatever the models, the hypot primitive
and the power flag. -/
theorem c10_empty_layer_error (hypot : ℚ → ℚ → ℚ) (models : List Model)
    (layer : Layer) (includePowerDeposited : Bool)
    (hempty : layer.geometry = []) :
    getExposurePoints hypot layer models includePowerDeposited =
      Except.error "need at least one array to concatenate" := by
  unfold getExposurePoints
  rw [hempty]
  rfl

/-- Witness for claim C10 at the empty layer. -/
theorem c10_witness :
    (Layer.mk 0 0 []).geometry = [] ∧
    getExposurePoints (fun _ _ => 0) (Layer.mk 0 0 []) [] true =
      Except.error "need at least one array to concatenate" :=
  ⟨rfl, c10_empty_layer_error (fun _ _ => 0) [] (Layer.mk 0 0 []) true rfl⟩
